import Mathlib

/-!
Shallow embedding of `src/Groovesizer.cpp` / `src/Groovesizer.h`, the
polling I/O driver for an 8x5 button matrix, a matching LED matrix and
six potentiometers behind a 4051 multiplexer.

Machine integers are modelled as `Nat` (resp. `Int` for C `int`
values) with explicit reductions: `byte` storage reduces mod 256, an
AVR `unsigned int` (16 bit, the type of `buttonDownTime[]` and of the
`heldFor` argument of the button-up callback) reduces mod `U16 = 2^16`,
and `unsigned long` (32 bit, the type of `millis()`, `lastButtonRead`
and `loopCount`) reduces mod `U32 = 2^32`.

Hardware inputs are explicit parameters: `now` is the unbounded real
time in milliseconds, so the value returned by `millis()` during a call
is `millis32 now = now % U32`; `sample i` is the byte assembled by
`shiftIn` for the `i`-th shift register in transmission order inside
`readButtons`; `raw i` is the raw `analogRead` sample seen while
channel `i` is selected on the multiplexer inside `readPots`.

The three nullable callback registrations are modelled by booleans
(whether the function pointer is non-null), and each callback
invocation is recorded, in invocation order, in an emitted event list
of type `List Ev`.  Pure pin toggling (latch, clock, multiplexer
select lines) has no observable effect in this model and is dropped.
-/

namespace Groovesizer

/-- Constant `MATRIX_ROWS = 5` (src/Groovesizer.cpp line 32). -/
def MATRIX_ROWS : Nat := 5

/-- Constant `MATRIX_COLS = 8` (src/Groovesizer.cpp line 31). -/
def MATRIX_COLS : Nat := 8

/-- Constant `NUM_POTS = 6` (src/Groovesizer.cpp line 20). -/
def NUM_POTS : Nat := 6

/-- Constant `ANALOG_RANGE_MIN = 25` (src/Groovesizer.cpp line 23). -/
def ANALOG_RANGE_MIN : Int := 25

/-- Constant `ANALOG_RANGE_MAX = 1000` (src/Groovesizer.cpp line 24). -/
def ANALOG_RANGE_MAX : Int := 1000

/-- Constant `DEBOUNCE_MILLIS = 10` (src/Groovesizer.cpp line 27). -/
def DEBOUNCE_MILLIS : Nat := 10

/-- Modulus of an AVR `unsigned int` (16 bit). -/
def U16 : Nat := 65536

/-- Modulus of an AVR `unsigned long` (32 bit). -/
def U32 : Nat := 4294967296

/-- Value of `millis()` (an `unsigned long`) at unbounded real time `now`. -/
def millis32 (now : Nat) : Nat := now % U32

/-- One callback invocation performed by the driver: `down row col` for
`_buttonDownCallback(row, col)`, `up row col held` for
`_buttonUpCallback(row, col, heldFor)`, `pot i val` for
`_potChangeCallback(i, potVal)`. -/
inductive Ev where
  | down (row col : Nat)
  | up (row col held : Nat)
  | pot (idx : Nat) (val : Int)
deriving DecidableEq

/-- The file-scope mutable state of src/Groovesizer.cpp (lines 36-52):
`ledRows`, `buttonState`, `prevButtonState` hold one byte per row,
`buttonDownTime` one 16-bit timestamp per cell at index
`row * MATRIX_COLS + col`, `prevPotState` one `int` per pot channel,
plus the `unsigned long` counters `loopCount` and `lastButtonRead`.
Arrays are modelled as total functions on `Nat`; the driver only ever
touches the in-range indices. -/
structure GState where
  ledRows : Nat → Nat
  buttonState : Nat → Nat
  prevButtonState : Nat → Nat
  buttonDownTime : Nat → Nat
  prevPotState : Nat → Int
  loopCount : Nat
  lastButtonRead : Nat

/-- Expression `millis() - buttonDownTime[row * MATRIX_COLS + col]`
assigned to the `unsigned int heldFor` (src/Groovesizer.cpp line 170):
the 16-bit stored timestamp is promoted to 32 bits, subtracted from the
32-bit clock with unsigned wrap-around, and the result is truncated to
16 bits by the assignment. -/
def heldForCalc (now stored : Nat) : Nat :=
  ((millis32 now + U32 - stored) % U32) % U16

/-- Condition of the button-down branch (src/Groovesizer.cpp line 164):
`_buttonDownCallback && !prev && curr` for bit `col` of the row bytes. -/
def downFire (hasDown : Bool) (prev curr col : Nat) : Bool :=
  hasDown && !prev.testBit col && curr.testBit col

/-- Condition of the button-up branch (src/Groovesizer.cpp line 168):
`_buttonUpCallback && !curr && prev` for bit `col` of the row bytes. -/
def upFire (hasUp : Bool) (prev curr col : Nat) : Bool :=
  hasUp && !curr.testBit col && prev.testBit col

/-- Body of the inner column loop of `Groovesizer::readButtons`
(src/Groovesizer.cpp lines 160-173) for one column `col` of row `row`:
`prev` and `curr` are `prevButtonState[row]` and `buttonState[row]`,
`bool prev/curr = bitRead(...)` is `Nat.testBit` of the bytes.  The
accumulator carries the `buttonDownTime` array and the callback
invocations emitted so far.  On a rising edge with a registered
button-down callback the cell timestamp is set to `millis()` (truncated
to 16 bits by the `unsigned int` array) and the down callback fires; on
a falling edge with a registered button-up callback the up callback
fires with the held duration; otherwise nothing happens. -/
def scanCol (hasDown hasUp : Bool) (row now prev curr : Nat)
    (acc : (Nat → Nat) × List Ev) (col : Nat) : (Nat → Nat) × List Ev :=
  if downFire hasDown prev curr col then
    (Function.update acc.1 (row * MATRIX_COLS + col) (millis32 now % U16),
      acc.2 ++ [Ev.down row col])
  else if upFire hasUp prev curr col then
    (acc.1, acc.2 ++ [Ev.up row col (heldForCalc now (acc.1 (row * MATRIX_COLS + col)))])
  else acc

/-- Per-row edge scan of `Groovesizer::readButtons` (src/Groovesizer.cpp
lines 159-174): if the freshly shifted byte `curr` differs from the
previous byte `prev`, scan all `MATRIX_COLS` columns in order. -/
def scanRow (hasDown hasUp : Bool) (row now prev curr : Nat)
    (bdt : Nat → Nat) : (Nat → Nat) × List Ev :=
  if curr ≠ prev then
    (List.range MATRIX_COLS).foldl (scanCol hasDown hasUp row now prev curr) (bdt, [])
  else (bdt, [])

/-- Body of the outer row loop of `Groovesizer::readButtons`
(src/Groovesizer.cpp lines 152-175) for loop index `i`: the row read on
iteration `i` is `MATRIX_ROWS - (i + 1)` (the register attached to the
chip comes in first, so physical transmission order reverses logical
row order).  The previous state is saved, the fresh byte is stored, and
the row is scanned for edges. -/
def readButtonsStep (hasDown hasUp : Bool) (now : Nat) (sample : Nat → Nat)
    (acc : GState × List Ev) (i : Nat) : GState × List Ev :=
  let row := MATRIX_ROWS - (i + 1)
  let prev := acc.1.buttonState row
  let curr := sample i % 256
  let sc := scanRow hasDown hasUp row now prev curr acc.1.buttonDownTime
  ({ acc.1 with
      prevButtonState := Function.update acc.1.prevButtonState row prev,
      buttonState := Function.update acc.1.buttonState row curr,
      buttonDownTime := sc.1 },
    acc.2 ++ sc.2)

/-- Operation `Groovesizer::readButtons` (src/Groovesizer.cpp lines
138-181).  The guard on line 140 is transcribed exactly as written:
`if (lastButtonRead + DEBOUNCE_MILLIS < millis()) return;` in
`unsigned long` arithmetic.  When the guard does not return, all
`MATRIX_ROWS` registers are shifted in and scanned, and finally
`lastButtonRead = millis()` is recorded. -/
def readButtons (hasDown hasUp : Bool) (s : GState) (now : Nat)
    (sample : Nat → Nat) : GState × List Ev :=
  if (s.lastButtonRead + DEBOUNCE_MILLIS) % U32 < millis32 now then
    (s, [])
  else
    let r := (List.range MATRIX_ROWS).foldl (readButtonsStep hasDown hasUp now sample) (s, [])
    ({ r.1 with lastButtonRead := millis32 now }, r.2)

/-- Arduino macro `constrain(amt, low, high)`: pin `amt` into
`[low, high]`. -/
def constrain (amt low high : Int) : Int :=
  if amt < low then low else if amt > high then high else amt

/-- Arduino function `map(x, in_min, in_max, out_min, out_max)`:
integer linear rescale `(x - in_min) * (out_max - out_min) /
(in_max - in_min) + out_min`.  All uses in this driver have a
non-negative dividend and a positive divisor, where C truncated
division agrees with Lean integer division. -/
def mapRange (x inMin inMax outMin outMax : Int) : Int :=
  (x - inMin) * (outMax - outMin) / (inMax - inMin) + outMin

/-- Operation `Groovesizer::getPotValue` (src/Groovesizer.cpp lines
199-209) minus the multiplexer pin toggling: clamp the raw analog
sample to `[ANALOG_RANGE_MIN, ANALOG_RANGE_MAX]` and rescale to
`[0, 1023]`. -/
def getPotValue (raw : Int) : Int :=
  mapRange (constrain raw ANALOG_RANGE_MIN ANALOG_RANGE_MAX)
    ANALOG_RANGE_MIN ANALOG_RANGE_MAX 0 1023

/-- Body of the loop of `Groovesizer::readPots` (src/Groovesizer.cpp
lines 184-193) for channel `i`.  The C source compares and stores
`potVal >> 3`; `getPotValue` always returns a value in `[0, 1023]`
(see `getPotValue_nonneg` below), on which the C right shift is
division by 8. -/
def readPotsStep (hasPot : Bool) (raw : Nat → Int)
    (acc : GState × List Ev) (i : Nat) : GState × List Ev :=
  let potVal := getPotValue (raw i)
  if potVal / 8 ≠ acc.1.prevPotState i then
    ({ acc.1 with prevPotState := Function.update acc.1.prevPotState i (potVal / 8) },
      acc.2 ++ (if hasPot then [Ev.pot i potVal] else []))
  else acc

/-- Operation `Groovesizer::readPots` (src/Groovesizer.cpp lines
183-194): for each channel `0 .. NUM_POTS - 1`, sample, quantize,
compare and possibly fire the pot-change callback. -/
def readPots (hasPot : Bool) (s : GState) (raw : Nat → Int) : GState × List Ev :=
  (List.range NUM_POTS).foldl (readPotsStep hasPot raw) (s, [])

/-- Operation `Groovesizer::read` (src/Groovesizer.cpp lines 120-123):
`readButtons(); readPots();`. -/
def read (hasDown hasUp hasPot : Bool) (s : GState) (now : Nat)
    (sample : Nat → Nat) (raw : Nat → Int) : GState × List Ev :=
  let rb := readButtons hasDown hasUp s now sample
  let rp := readPots hasPot rb.1 raw
  (rp.1, rb.2 ++ rp.2)

/-- Arduino macro `bitWrite(value, bit, b)` applied to a `byte` lvalue:
set or clear bit `bit` using 32-bit masks, then truncate to the byte on
store. -/
def bitWrite (x bit : Nat) (b : Bool) : Nat :=
  (if b then x ||| (1 <<< bit) else x &&& (U32 - 1 - (1 <<< bit))) % 256

/-- Operation `Groovesizer::setLed` (src/Groovesizer.cpp lines 95-97):
`bitWrite(ledRows[row], MATRIX_COLS - 1 - col, val)`. -/
def setLed (s : GState) (row col : Nat) (val : Bool) : GState :=
  { s with ledRows :=
      Function.update s.ledRows row (bitWrite (s.ledRows row) (MATRIX_COLS - 1 - col) val) }

/-- Operation `Groovesizer::setLedRow` (src/Groovesizer.cpp lines
103-105): `ledRows[row] = val;` where `val` is a `byte`. -/
def setLedRow (s : GState) (row val : Nat) : GState :=
  { s with ledRows := Function.update s.ledRows row (val % 256) }

/-- Operation `Groovesizer::getButton` (src/Groovesizer.cpp lines
111-113): `bitRead(buttonState[row], col)`. -/
def getButton (s : GState) (row col : Nat) : Bool :=
  (s.buttonState row).testBit col

/-- Operation `Groovesizer::writeLeds` (src/Groovesizer.cpp lines
212-222), observed as the sequence of bytes passed to `shiftOut` in
loop order `i = 0 .. MATRIX_ROWS - 1`: row byte `ledRows[i]` on an
even `loopCount`, `B00000000` on an odd one. -/
def writeLeds (s : GState) : List Nat :=
  (List.range MATRIX_ROWS).foldl
    (fun out i => out ++ [if s.loopCount % 2 == 0 then s.ledRows i else 0]) []

/-- Operation `Groovesizer::write` (src/Groovesizer.cpp lines 129-132):
`writeLeds(); loopCount++;` with `loopCount` an `unsigned long`. -/
def write (s : GState) : GState × List Nat :=
  ({ s with loopCount := (s.loopCount + 1) % U32 }, writeLeds s)

/-- The zero-initialized file-scope state of src/Groovesizer.cpp before
the constructor body runs: C statics are zero-initialized. -/
def initialState : GState where
  ledRows := fun _ => 0
  buttonState := fun _ => 0
  prevButtonState := fun _ => 0
  buttonDownTime := fun _ => 0
  prevPotState := fun _ => 0
  loopCount := 0
  lastButtonRead := 0

/-- Constructor `Groovesizer::Groovesizer` (src/Groovesizer.cpp lines
59-79) minus pin configuration: the three callback pointers are set to
`NULL` and then `this->read()` runs once, at clock value `now`. -/
def construct (now : Nat) (sample : Nat → Nat) (raw : Nat → Int) : GState × List Ev :=
  read false false false initialState now sample raw

/-- Predicate selecting the button events of cell `(r, c)` in an event
list. -/
def evAtCell (r c : Nat) : Ev → Bool
  | .down row col => row == r && col == c
  | .up row col _ => row == r && col == c
  | .pot _ _ => false

/-- Predicate selecting the pot-change events of channel `i` in an
event list. -/
def evAtPot (i : Nat) : Ev → Bool
  | .pot idx _ => idx == i
  | _ => false

/-- Declarative per-cell event description used to characterize
`scanCol`: the events which the column branch emits for column `col`,
reading the stored press timestamp from `bdt`. -/
def cellEv (hasDown hasUp : Bool) (row now prev curr : Nat)
    (bdt : Nat → Nat) (col : Nat) : List Ev :=
  if downFire hasDown prev curr col then [Ev.down row col]
  else if upFire hasUp prev curr col then
    [Ev.up row col (heldForCalc now (bdt (row * MATRIX_COLS + col)))]
  else []

/-- Concatenation of the per-column event lists over a list of column
indices. -/
def catMap (f : Nat → List Ev) : List Nat → List Ev
  | [] => []
  | c :: cs => f c ++ catMap f cs

/-! Helper lemmas about the event filters and `catMap`. -/

theorem catMap_eq_nil (f : Nat → List Ev) :
    ∀ cols : List Nat, (∀ c ∈ cols, f c = []) → catMap f cols = [] := by
  intro cols
  induction cols with
  | nil => intro _; rfl
  | cons c cs ih =>
      intro h
      rw [catMap, h c (List.mem_cons_self _ _), List.nil_append]
      exact ih fun c hc => h c (List.mem_cons_of_mem _ hc)

theorem filter_catMap (p : Ev → Bool) (f : Nat → List Ev) :
    ∀ cols : List Nat,
      (catMap f cols).filter p = catMap (fun c => (f c).filter p) cols := by
  intro cols
  induction cols with
  | nil => rfl
  | cons c cs ih => rw [catMap, List.filter_append, ih, catMap]

theorem filter_cellEv_ne (hd hu : Bool) (row now prev curr : Nat)
    (bdt : Nat → Nat) (r c col : Nat) (h : row ≠ r ∨ col ≠ c) :
    (cellEv hd hu row now prev curr bdt col).filter (evAtCell r c) = [] := by
  have hb : (row == r && col == c) = false := by
    rcases h with h | h <;> simp [h]
  unfold cellEv
  split
  · simp [List.filter, evAtCell, hb]
  · split
    · simp [List.filter, evAtCell, hb]
    · rfl

theorem filter_cellEv_self (hd hu : Bool) (r now prev curr : Nat)
    (bdt : Nat → Nat) (c : Nat) :
    (cellEv hd hu r now prev curr bdt c).filter (evAtCell r c)
      = cellEv hd hu r now prev curr bdt c := by
  unfold cellEv
  split
  · simp [List.filter, evAtCell]
  · split
    · simp [List.filter, evAtCell]
    · rfl

theorem catMap_cellEv_filter_ne_row (hd hu : Bool) (row now prev curr : Nat)
    (bdt : Nat → Nat) (r c : Nat) (h : row ≠ r) (cols : List Nat) :
    (catMap (cellEv hd hu row now prev curr bdt) cols).filter (evAtCell r c) = [] := by
  rw [filter_catMap]
  exact catMap_eq_nil _ cols fun col _ =>
    filter_cellEv_ne hd hu row now prev curr bdt r c col (Or.inl h)

theorem catMap_cellEv_filter_not_mem (hd hu : Bool) (r now prev curr : Nat)
    (bdt : Nat → Nat) (c : Nat) (cols : List Nat) (h : c ∉ cols) :
    (catMap (cellEv hd hu r now prev curr bdt) cols).filter (evAtCell r c) = [] := by
  rw [filter_catMap]
  refine catMap_eq_nil _ cols fun col hcol => ?_
  refine filter_cellEv_ne hd hu r now prev curr bdt r c col (Or.inr ?_)
  rintro rfl
  exact h hcol

theorem catMap_cellEv_filter_self (hd hu : Bool) (r now prev curr : Nat)
    (bdt : Nat → Nat) (c : Nat) :
    ∀ cols : List Nat, cols.Nodup → c ∈ cols →
      (catMap (cellEv hd hu r now prev curr bdt) cols).filter (evAtCell r c)
        = cellEv hd hu r now prev curr bdt c := by
  intro cols
  induction cols with
  | nil => intro _ hc; cases hc
  | cons col cs ih =>
      intro hnd hc
      rw [catMap, List.filter_append]
      rcases List.mem_cons.mp hc with rfl | hmem
      · rw [filter_cellEv_self,
          catMap_cellEv_filter_not_mem hd hu r now prev curr bdt c cs
            (List.nodup_cons.mp hnd).1, List.append_nil]
      · have hne : col ≠ c := by
          rintro rfl
          exact (List.nodup_cons.mp hnd).1 hmem
        rw [filter_cellEv_ne hd hu r now prev curr bdt r c col (Or.inr hne),
          List.nil_append]
        exact ih (List.nodup_cons.mp hnd).2 hmem

theorem cellEv_congr (hd hu : Bool) (row now prev curr : Nat)
    (bdt1 bdt2 : Nat → Nat) (c : Nat)
    (h : bdt1 (row * MATRIX_COLS + c) = bdt2 (row * MATRIX_COLS + c)) :
    cellEv hd hu row now prev curr bdt1 c = cellEv hd hu row now prev curr bdt2 c := by
  unfold cellEv
  rw [h]

theorem downFire_self (hd : Bool) (prev col : Nat) :
    downFire hd prev prev col = false := by
  unfold downFire
  cases prev.testBit col <;> simp

theorem upFire_self (hu : Bool) (prev col : Nat) :
    upFire hu prev prev col = false := by
  unfold upFire
  cases prev.testBit col <;> simp

theorem cellEv_no_listeners (row now prev curr : Nat) (bdt : Nat → Nat) (c : Nat) :
    cellEv false false row now prev curr bdt c = [] := by
  simp [cellEv, downFire, upFire]

/-- Distinct cells have distinct `buttonDownTime` indices. -/
theorem cellIndex_ne {row r col c : Nat} (hrow : row ≠ r)
    (hcol : col < MATRIX_COLS) (hc : c < MATRIX_COLS) :
    r * MATRIX_COLS + c ≠ row * MATRIX_COLS + col := by
  simp only [MATRIX_COLS] at hcol hc ⊢
  omega

/-! Characterization of the inner column loop of `readButtons`. -/

theorem scanCol_fst_ne (hd hu : Bool) (row now prev curr : Nat)
    (acc : (Nat → Nat) × List Ev) (col j : Nat)
    (hj : j ≠ row * MATRIX_COLS + col) :
    (scanCol hd hu row now prev curr acc col).1 j = acc.1 j := by
  unfold scanCol
  split
  · exact Function.update_noteq hj _ _
  · split
    · rfl
    · rfl

theorem foldl_scanCol_fst_frame (hd hu : Bool) (row now prev curr : Nat) :
    ∀ (cols : List Nat) (acc : (Nat → Nat) × List Ev) (j : Nat),
      (∀ col ∈ cols, j ≠ row * MATRIX_COLS + col) →
      (cols.foldl (scanCol hd hu row now prev curr) acc).1 j = acc.1 j := by
  intro cols
  induction cols with
  | nil => intro acc j _; rfl
  | cons col cs ih =>
      intro acc j h
      rw [List.foldl_cons, ih _ j fun c hc => h c (List.mem_cons_of_mem _ hc)]
      exact scanCol_fst_ne hd hu row now prev curr acc col j
        (h col (List.mem_cons_self _ _))

theorem foldl_scanCol_fst_mem (hd hu : Bool) (row now prev curr : Nat) :
    ∀ (cols : List Nat) (acc : (Nat → Nat) × List Ev) (c : Nat),
      cols.Nodup → c ∈ cols →
      (cols.foldl (scanCol hd hu row now prev curr) acc).1 (row * MATRIX_COLS + c)
        = if downFire hd prev curr c then millis32 now % U16
          else acc.1 (row * MATRIX_COLS + c) := by
  intro cols
  induction cols with
  | nil => intro acc c _ hc; cases hc
  | cons col cs ih =>
      intro acc c hnd hc
      rw [List.foldl_cons]
      rcases List.mem_cons.mp hc with rfl | hmem
      · have hnotin : c ∉ cs := (List.nodup_cons.mp hnd).1
        rw [foldl_scanCol_fst_frame hd hu row now prev curr cs _ _
          (fun col' hcol' he => hnotin (by rw [Nat.add_left_cancel he]; exact hcol'))]
        unfold scanCol
        rcases Bool.eq_false_or_eq_true (downFire hd prev curr c) with hdf | hdf
        · rw [hdf]
          simp [Function.update_same]
        · rw [hdf]
          simp only [Bool.false_eq_true, if_false]
          split
          · rfl
          · rfl
      · have hne : row * MATRIX_COLS + c ≠ row * MATRIX_COLS + col := by
          intro he
          exact (List.nodup_cons.mp hnd).1 (by rw [← Nat.add_left_cancel he]; exact hmem)
        rw [ih _ c (List.nodup_cons.mp hnd).2 hmem,
          scanCol_fst_ne hd hu row now prev curr acc col _ hne]

theorem foldl_scanCol_events (hd hu : Bool) (row now prev curr : Nat)
    (bdt0 : Nat → Nat) :
    ∀ (cols : List Nat) (acc : (Nat → Nat) × List Ev),
      cols.Nodup →
      (∀ col ∈ cols, acc.1 (row * MATRIX_COLS + col) = bdt0 (row * MATRIX_COLS + col)) →
      (cols.foldl (scanCol hd hu row now prev curr) acc).2
        = acc.2 ++ catMap (cellEv hd hu row now prev curr bdt0) cols := by
  intro cols
  induction cols with
  | nil => intro acc _ _; rw [catMap, List.append_nil]; rfl
  | cons col cs ih =>
      intro acc hnd hagree
      have hcol := hagree col (List.mem_cons_self _ _)
      have hnotin : col ∉ cs := (List.nodup_cons.mp hnd).1
      have htail : ∀ c ∈ cs,
          (scanCol hd hu row now prev curr acc col).1 (row * MATRIX_COLS + c)
            = bdt0 (row * MATRIX_COLS + c) := by
        intro c hcmem
        have hne : row * MATRIX_COLS + c ≠ row * MATRIX_COLS + col := by
          intro he
          exact hnotin (by rw [← Nat.add_left_cancel he]; exact hcmem)
        rw [scanCol_fst_ne hd hu row now prev curr acc col _ hne]
        exact hagree c (List.mem_cons_of_mem _ hcmem)
      rw [List.foldl_cons, ih _ (List.nodup_cons.mp hnd).2 htail, catMap]
      have hstep : (scanCol hd hu row now prev curr acc col).2
          = acc.2 ++ cellEv hd hu row now prev curr bdt0 col := by
        unfold scanCol cellEv
        split
        · rfl
        · split
          · rw [hcol]
          · rw [List.append_nil]
      rw [hstep, List.append_assoc]

/-! Characterization of `scanRow`. -/

theorem scanRow_fst_frame (hd hu : Bool) (row now prev curr : Nat) (bdt : Nat → Nat)
    (j : Nat) (hj : ∀ col, col < MATRIX_COLS → j ≠ row * MATRIX_COLS + col) :
    (scanRow hd hu row now prev curr bdt).1 j = bdt j := by
  unfold scanRow
  split
  · exact foldl_scanCol_fst_frame hd hu row now prev curr _ _ _
      fun col hc => hj col (List.mem_range.mp hc)
  · rfl

theorem scanRow_fst_mem (hd hu : Bool) (row now prev curr : Nat) (bdt : Nat → Nat)
    (c : Nat) (hc : c < MATRIX_COLS) :
    (scanRow hd hu row now prev curr bdt).1 (row * MATRIX_COLS + c)
      = if downFire hd prev curr c then millis32 now % U16
        else bdt (row * MATRIX_COLS + c) := by
  unfold scanRow
  split
  · exact foldl_scanCol_fst_mem hd hu row now prev curr _ _ _
      (List.nodup_range _) (List.mem_range.mpr hc)
  · next h =>
      have hpc : curr = prev := not_ne_iff.mp h
      rw [hpc, downFire_self]
      simp

theorem scanRow_events (hd hu : Bool) (row now prev curr : Nat) (bdt : Nat → Nat) :
    (scanRow hd hu row now prev curr bdt).2
      = catMap (cellEv hd hu row now prev curr bdt) (List.range MATRIX_COLS) := by
  unfold scanRow
  split
  · rw [foldl_scanCol_events hd hu row now prev curr bdt _ _
      (List.nodup_range _) (fun _ _ => rfl), List.nil_append]
  · next h =>
      have hpc : curr = prev := not_ne_iff.mp h
      symm
      refine catMap_eq_nil _ _ fun col _ => ?_
      rw [hpc]
      simp [cellEv, downFire_self, upFire_self]

/-! Characterization of the outer row loop of `readButtons`.  The step
at loop index `i` reads row `MATRIX_ROWS - (i + 1)`; it leaves every
other row and every other row's cells alone, and contributes exactly
the per-cell events of its own row. -/

theorem readButtonsStep_frame (hd hu : Bool) (now : Nat) (sample : Nat → Nat)
    (acc : GState × List Ev) (i r : Nat) (hrow : MATRIX_ROWS - (i + 1) ≠ r) :
    ((readButtonsStep hd hu now sample acc i).1.buttonState r = acc.1.buttonState r)
    ∧ ((readButtonsStep hd hu now sample acc i).1.prevButtonState r
        = acc.1.prevButtonState r)
    ∧ (∀ c, c < MATRIX_COLS →
        (readButtonsStep hd hu now sample acc i).1.buttonDownTime (r * MATRIX_COLS + c)
          = acc.1.buttonDownTime (r * MATRIX_COLS + c))
    ∧ (∀ c, (readButtonsStep hd hu now sample acc i).2.filter (evAtCell r c)
          = acc.2.filter (evAtCell r c)) := by
  refine ⟨Function.update_noteq (Ne.symm hrow) _ _,
    Function.update_noteq (Ne.symm hrow) _ _, ?_, ?_⟩
  · intro c hc
    exact scanRow_fst_frame hd hu _ now _ _ _ _
      fun col hcol => cellIndex_ne hrow hcol hc
  · intro c
    rw [show (readButtonsStep hd hu now sample acc i).2
        = acc.2 ++ (scanRow hd hu (MATRIX_ROWS - (i + 1)) now
            (acc.1.buttonState (MATRIX_ROWS - (i + 1))) (sample i % 256)
            acc.1.buttonDownTime).2 from rfl,
      List.filter_append, scanRow_events,
      catMap_cellEv_filter_ne_row hd hu _ now _ _ _ r c hrow, List.append_nil]

theorem foldl_readButtonsStep_frame (hd hu : Bool) (now : Nat) (sample : Nat → Nat) :
    ∀ (is : List Nat) (acc : GState × List Ev) (r : Nat),
      (∀ i ∈ is, MATRIX_ROWS - (i + 1) ≠ r) →
      ((is.foldl (readButtonsStep hd hu now sample) acc).1.buttonState r
          = acc.1.buttonState r)
      ∧ ((is.foldl (readButtonsStep hd hu now sample) acc).1.prevButtonState r
          = acc.1.prevButtonState r)
      ∧ (∀ c, c < MATRIX_COLS →
          (is.foldl (readButtonsStep hd hu now sample) acc).1.buttonDownTime
              (r * MATRIX_COLS + c)
            = acc.1.buttonDownTime (r * MATRIX_COLS + c))
      ∧ (∀ c, (is.foldl (readButtonsStep hd hu now sample) acc).2.filter (evAtCell r c)
            = acc.2.filter (evAtCell r c)) := by
  intro is
  induction is with
  | nil => intro acc r _; exact ⟨rfl, rfl, fun _ _ => rfl, fun _ => rfl⟩
  | cons a as ih =>
      intro acc r h
      have hstep := readButtonsStep_frame hd hu now sample acc a r
        (h a (List.mem_cons_self _ _))
      have hih := ih (readButtonsStep hd hu now sample acc a) r
        fun i hi => h i (List.mem_cons_of_mem _ hi)
      rw [List.foldl_cons]
      exact ⟨hih.1.trans hstep.1, hih.2.1.trans hstep.2.1,
        fun c hc => (hih.2.2.1 c hc).trans (hstep.2.2.1 c hc),
        fun c => (hih.2.2.2 c).trans (hstep.2.2.2 c)⟩

theorem readButtonsStep_visit (hd hu : Bool) (now : Nat) (sample : Nat → Nat)
    (acc : GState × List Ev) (i c : Nat) (hc : c < MATRIX_COLS) :
    ((readButtonsStep hd hu now sample acc i).1.buttonState (MATRIX_ROWS - (i + 1))
        = sample i % 256)
    ∧ ((readButtonsStep hd hu now sample acc i).1.prevButtonState (MATRIX_ROWS - (i + 1))
        = acc.1.buttonState (MATRIX_ROWS - (i + 1)))
    ∧ ((readButtonsStep hd hu now sample acc i).1.buttonDownTime
          ((MATRIX_ROWS - (i + 1)) * MATRIX_COLS + c)
        = if downFire hd (acc.1.buttonState (MATRIX_ROWS - (i + 1))) (sample i % 256) c
          then millis32 now % U16
          else acc.1.buttonDownTime ((MATRIX_ROWS - (i + 1)) * MATRIX_COLS + c))
    ∧ ((readButtonsStep hd hu now sample acc i).2.filter
          (evAtCell (MATRIX_ROWS - (i + 1)) c)
        = acc.2.filter (evAtCell (MATRIX_ROWS - (i + 1)) c)
          ++ cellEv hd hu (MATRIX_ROWS - (i + 1)) now
              (acc.1.buttonState (MATRIX_ROWS - (i + 1))) (sample i % 256)
              acc.1.buttonDownTime c) := by
  refine ⟨Function.update_same _ _ _, Function.update_same _ _ _, ?_, ?_⟩
  · exact scanRow_fst_mem hd hu _ now _ _ _ c hc
  · rw [show (readButtonsStep hd hu now sample acc i).2
        = acc.2 ++ (scanRow hd hu (MATRIX_ROWS - (i + 1)) now
            (acc.1.buttonState (MATRIX_ROWS - (i + 1))) (sample i % 256)
            acc.1.buttonDownTime).2 from rfl,
      List.filter_append, scanRow_events,
      catMap_cellEv_filter_self hd hu _ now _ _ _ c _ (List.nodup_range _)
        (List.mem_range.mpr hc)]

theorem readButtons_char_aux (hd hu : Bool) (s : GState) (now : Nat)
    (sample : Nat → Nat)
    (hg : ¬ (s.lastButtonRead + DEBOUNCE_MILLIS) % U32 < millis32 now)
    (r c : Nat) (hc : c < MATRIX_COLS) (pre post : List Nat)
    (hdec : List.range MATRIX_ROWS = pre ++ (MATRIX_ROWS - (r + 1)) :: post)
    (hpre : ∀ i ∈ pre, MATRIX_ROWS - (i + 1) ≠ r)
    (hpost : ∀ i ∈ post, MATRIX_ROWS - (i + 1) ≠ r)
    (hrr : MATRIX_ROWS - (MATRIX_ROWS - (r + 1) + 1) = r) :
    ((readButtons hd hu s now sample).1.buttonState r
        = sample (MATRIX_ROWS - (r + 1)) % 256)
    ∧ ((readButtons hd hu s now sample).1.prevButtonState r = s.buttonState r)
    ∧ ((readButtons hd hu s now sample).1.buttonDownTime (r * MATRIX_COLS + c)
        = if downFire hd (s.buttonState r) (sample (MATRIX_ROWS - (r + 1)) % 256) c
          then millis32 now % U16
          else s.buttonDownTime (r * MATRIX_COLS + c))
    ∧ ((readButtons hd hu s now sample).2.filter (evAtCell r c)
        = cellEv hd hu r now (s.buttonState r) (sample (MATRIX_ROWS - (r + 1)) % 256)
            s.buttonDownTime c)
    ∧ ((readButtons hd hu s now sample).1.lastButtonRead = millis32 now) := by
  simp only [readButtons]
  rw [if_neg hg, hdec, List.foldl_append, List.foldl_cons]
  have hA := foldl_readButtonsStep_frame hd hu now sample pre (s, []) r hpre
  have hB := readButtonsStep_visit hd hu now sample
    (List.foldl (readButtonsStep hd hu now sample) (s, []) pre)
    (MATRIX_ROWS - (r + 1)) c hc
  rw [hrr] at hB
  have hC := foldl_readButtonsStep_frame hd hu now sample post
    (readButtonsStep hd hu now sample
      (List.foldl (readButtonsStep hd hu now sample) (s, []) pre)
      (MATRIX_ROWS - (r + 1))) r hpost
  refine ⟨hC.1.trans hB.1, (hC.2.1.trans hB.2.1).trans hA.1, ?_, ?_, rfl⟩
  · rw [show ({ (List.foldl (readButtonsStep hd hu now sample)
        (readButtonsStep hd hu now sample
          (List.foldl (readButtonsStep hd hu now sample) (s, []) pre)
          (MATRIX_ROWS - (r + 1))) post).1 with
            lastButtonRead := millis32 now } : GState).buttonDownTime
        = (List.foldl (readButtonsStep hd hu now sample)
            (readButtonsStep hd hu now sample
              (List.foldl (readButtonsStep hd hu now sample) (s, []) pre)
              (MATRIX_ROWS - (r + 1))) post).1.buttonDownTime from rfl,
      hC.2.2.1 c hc, hB.2.2.1, hA.1, hA.2.2.1 c hc]
  · rw [show ({ (List.foldl (readButtonsStep hd hu now sample)
        (readButtonsStep hd hu now sample
          (List.foldl (readButtonsStep hd hu now sample) (s, []) pre)
          (MATRIX_ROWS - (r + 1))) post).1 with
            lastButtonRead := millis32 now },
          (List.foldl (readButtonsStep hd hu now sample)
            (readButtonsStep hd hu now sample
              (List.foldl (readButtonsStep hd hu now sample) (s, []) pre)
              (MATRIX_ROWS - (r + 1))) post).2).2
        = (List.foldl (readButtonsStep hd hu now sample)
            (readButtonsStep hd hu now sample
              (List.foldl (readButtonsStep hd hu now sample) (s, []) pre)
              (MATRIX_ROWS - (r + 1))) post).2 from rfl,
      hC.2.2.2 c, hB.2.2.2, hA.2.2.2 c,
      show (((s, []) : GState × List Ev)).2.filter (evAtCell r c) = [] from rfl,
      List.nil_append, hA.1,
      cellEv_congr hd hu r now _ _ _ _ _ (hA.2.2.1 c hc)]

theorem readButtons_char (hd hu : Bool) (s : GState) (now : Nat) (sample : Nat → Nat)
    (hg : ¬ (s.lastButtonRead + DEBOUNCE_MILLIS) % U32 < millis32 now)
    (r c : Nat) (hr : r < MATRIX_ROWS) (hc : c < MATRIX_COLS) :
    ((readButtons hd hu s now sample).1.buttonState r
        = sample (MATRIX_ROWS - (r + 1)) % 256)
    ∧ ((readButtons hd hu s now sample).1.prevButtonState r = s.buttonState r)
    ∧ ((readButtons hd hu s now sample).1.buttonDownTime (r * MATRIX_COLS + c)
        = if downFire hd (s.buttonState r) (sample (MATRIX_ROWS - (r + 1)) % 256) c
          then millis32 now % U16
          else s.buttonDownTime (r * MATRIX_COLS + c))
    ∧ ((readButtons hd hu s now sample).2.filter (evAtCell r c)
        = cellEv hd hu r now (s.buttonState r) (sample (MATRIX_ROWS - (r + 1)) % 256)
            s.buttonDownTime c)
    ∧ ((readButtons hd hu s now sample).1.lastButtonRead = millis32 now) := by
  have hr5 : r < 5 := by simpa [MATRIX_ROWS] using hr
  interval_cases r
  · exact readButtons_char_aux hd hu s now sample hg 0 c hc [0, 1, 2, 3] []
      rfl (by decide) (by decide) rfl
  · exact readButtons_char_aux hd hu s now sample hg 1 c hc [0, 1, 2] [4]
      rfl (by decide) (by decide) rfl
  · exact readButtons_char_aux hd hu s now sample hg 2 c hc [0, 1] [3, 4]
      rfl (by decide) (by decide) rfl
  · exact readButtons_char_aux hd hu s now sample hg 3 c hc [0] [2, 3, 4]
      rfl (by decide) (by decide) rfl
  · exact readButtons_char_aux hd hu s now sample hg 4 c hc [] [1, 2, 3, 4]
      rfl (by decide) (by decide) rfl

/-! Bounds for the rescaled pot value: `getPotValue` always lands in
`[0, 1023]`, which justifies reading the C `potVal >> 3` as division
by 8. -/

theorem getPotValue_bounds (raw : Int) :
    0 ≤ getPotValue raw ∧ getPotValue raw ≤ 1023 := by
  unfold getPotValue mapRange constrain ANALOG_RANGE_MIN ANALOG_RANGE_MAX
  split
  · norm_num
  · split
    · norm_num
    · next h1 h2 =>
        push_neg at h1 h2
        constructor
        · have hnum : (0 : Int) ≤ (raw - 25) * (1023 - 0) := by nlinarith
          have := Int.ediv_nonneg hnum (by norm_num : (0 : Int) ≤ 1000 - 25)
          omega
        · have hnum : (raw - 25) * (1023 - 0) ≤ 975 * 1023 := by nlinarith
          have hmono : (raw - 25) * (1023 - 0) / (1000 - 25) ≤ 975 * 1023 / (1000 - 25) := by
            apply Int.ediv_le_ediv (by norm_num) hnum
          have hval : (975 : Int) * 1023 / (1000 - 25) = 1023 := by decide
          omega

/-! Characterization of the channel loop of `readPots`.  The step for
channel `i` touches only channel `i` of `prevPotState` and contributes
only events tagged with channel `i`. -/

theorem readPotsStep_frame (hp : Bool) (raw : Nat → Int) (acc : GState × List Ev)
    (i j : Nat) (hij : i ≠ j) :
    ((readPotsStep hp raw acc i).1.prevPotState j = acc.1.prevPotState j)
    ∧ ((readPotsStep hp raw acc i).2.filter (evAtPot j) = acc.2.filter (evAtPot j)) := by
  simp only [readPotsStep]
  split
  · constructor
    · exact Function.update_noteq (Ne.symm hij) _ _
    · have hb : (i == j) = false := beq_eq_false_iff_ne.mpr hij
      have hnil : (if hp then [Ev.pot i (getPotValue (raw i))] else []).filter
          (evAtPot j) = [] := by
        split
        · simp [List.filter, evAtPot, hb]
        · rfl
      rw [List.filter_append, hnil, List.append_nil]
  · exact ⟨rfl, rfl⟩

theorem foldl_readPotsStep_frame (hp : Bool) (raw : Nat → Int) :
    ∀ (is : List Nat) (acc : GState × List Ev) (j : Nat), j ∉ is →
      ((is.foldl (readPotsStep hp raw) acc).1.prevPotState j = acc.1.prevPotState j)
      ∧ ((is.foldl (readPotsStep hp raw) acc).2.filter (evAtPot j)
          = acc.2.filter (evAtPot j)) := by
  intro is
  induction is with
  | nil => intro acc j _; exact ⟨rfl, rfl⟩
  | cons a as ih =>
      intro acc j h
      have hja : a ≠ j := by
        rintro rfl
        exact h (List.mem_cons_self _ _)
      have hstep := readPotsStep_frame hp raw acc a j hja
      have hih := ih (readPotsStep hp raw acc a) j fun hj => h (List.mem_cons_of_mem _ hj)
      rw [List.foldl_cons]
      exact ⟨hih.1.trans hstep.1, hih.2.trans hstep.2⟩

theorem readPotsStep_visit (hp : Bool) (raw : Nat → Int) (acc : GState × List Ev)
    (i : Nat) :
    ((readPotsStep hp raw acc i).1.prevPotState i = getPotValue (raw i) / 8)
    ∧ ((readPotsStep hp raw acc i).2.filter (evAtPot i)
        = acc.2.filter (evAtPot i)
          ++ (if getPotValue (raw i) / 8 ≠ acc.1.prevPotState i then
                (if hp then [Ev.pot i (getPotValue (raw i))] else []) else [])) := by
  simp only [readPotsStep]
  split
  · next hne =>
      refine ⟨Function.update_same _ _ _, ?_⟩
      rw [List.filter_append]
      congr 1
      split
      · simp [List.filter, evAtPot]
      · rfl
  · next heq =>
      refine ⟨(not_ne_iff.mp heq).symm, ?_⟩
      rw [List.append_nil]

theorem readPots_char_aux (hp : Bool) (s : GState) (raw : Nat → Int) (i : Nat)
    (pre post : List Nat)
    (hdec : List.range NUM_POTS = pre ++ i :: post)
    (hpre : i ∉ pre) (hpost : i ∉ post) :
    ((readPots hp s raw).1.prevPotState i = getPotValue (raw i) / 8)
    ∧ ((readPots hp s raw).2.filter (evAtPot i)
        = if getPotValue (raw i) / 8 ≠ s.prevPotState i then
            (if hp then [Ev.pot i (getPotValue (raw i))] else []) else []) := by
  unfold readPots
  rw [hdec, List.foldl_append, List.foldl_cons]
  have hA := foldl_readPotsStep_frame hp raw pre (s, []) i hpre
  have hB := readPotsStep_visit hp raw (List.foldl (readPotsStep hp raw) (s, []) pre) i
  have hC := foldl_readPotsStep_frame hp raw post
    (readPotsStep hp raw (List.foldl (readPotsStep hp raw) (s, []) pre) i) i hpost
  refine ⟨hC.1.trans hB.1, ?_⟩
  rw [hC.2, hB.2, hA.2,
    show (((s, []) : GState × List Ev)).2.filter (evAtPot i) = [] from rfl,
    List.nil_append, hA.1]

theorem readPots_char (hp : Bool) (s : GState) (raw : Nat → Int) (i : Nat)
    (hi : i < NUM_POTS) :
    ((readPots hp s raw).1.prevPotState i = getPotValue (raw i) / 8)
    ∧ ((readPots hp s raw).2.filter (evAtPot i)
        = if getPotValue (raw i) / 8 ≠ s.prevPotState i then
            (if hp then [Ev.pot i (getPotValue (raw i))] else []) else []) := by
  have hi6 : i < 6 := by simpa [NUM_POTS] using hi
  interval_cases i
  · exact readPots_char_aux hp s raw 0 [] [1, 2, 3, 4, 5] rfl (by decide) (by decide)
  · exact readPots_char_aux hp s raw 1 [0] [2, 3, 4, 5] rfl (by decide) (by decide)
  · exact readPots_char_aux hp s raw 2 [0, 1] [3, 4, 5] rfl (by decide) (by decide)
  · exact readPots_char_aux hp s raw 3 [0, 1, 2] [4, 5] rfl (by decide) (by decide)
  · exact readPots_char_aux hp s raw 4 [0, 1, 2, 3] [5] rfl (by decide) (by decide)
  · exact readPots_char_aux hp s raw 5 [0, 1, 2, 3, 4] [] rfl (by decide) (by decide)

/-! Framing: `readButtons` never touches the pot or LED state, and
`readPots` never touches the button or LED state. -/

theorem readButtons_pot_fields (hd hu : Bool) (s : GState) (now : Nat)
    (sample : Nat → Nat) :
    ((readButtons hd hu s now sample).1.prevPotState = s.prevPotState)
    ∧ ((readButtons hd hu s now sample).1.ledRows = s.ledRows)
    ∧ ((readButtons hd hu s now sample).1.loopCount = s.loopCount) := by
  have hfold : ∀ (is : List Nat) (acc : GState × List Ev),
      ((is.foldl (readButtonsStep hd hu now sample) acc).1.prevPotState
          = acc.1.prevPotState)
      ∧ ((is.foldl (readButtonsStep hd hu now sample) acc).1.ledRows = acc.1.ledRows)
      ∧ ((is.foldl (readButtonsStep hd hu now sample) acc).1.loopCount
          = acc.1.loopCount) := by
    intro is
    induction is with
    | nil => intro acc; exact ⟨rfl, rfl, rfl⟩
    | cons a as ih =>
        intro acc
        rw [List.foldl_cons]
        exact ⟨(ih _).1.trans rfl, (ih _).2.1.trans rfl, (ih _).2.2.trans rfl⟩
  unfold readButtons
  split
  · exact ⟨rfl, rfl, rfl⟩
  · exact ⟨(hfold _ _).1, (hfold _ _).2.1, (hfold _ _).2.2⟩

theorem readPotsStep_button_fields (hp : Bool) (raw : Nat → Int)
    (acc : GState × List Ev) (a : Nat) :
    ((readPotsStep hp raw acc a).1.buttonState = acc.1.buttonState)
    ∧ ((readPotsStep hp raw acc a).1.prevButtonState = acc.1.prevButtonState)
    ∧ ((readPotsStep hp raw acc a).1.buttonDownTime = acc.1.buttonDownTime)
    ∧ ((readPotsStep hp raw acc a).1.ledRows = acc.1.ledRows)
    ∧ ((readPotsStep hp raw acc a).1.loopCount = acc.1.loopCount)
    ∧ ((readPotsStep hp raw acc a).1.lastButtonRead = acc.1.lastButtonRead) := by
  simp only [readPotsStep]
  split
  · exact ⟨rfl, rfl, rfl, rfl, rfl, rfl⟩
  · exact ⟨rfl, rfl, rfl, rfl, rfl, rfl⟩

theorem readPots_button_fields (hp : Bool) (s : GState) (raw : Nat → Int) :
    ((readPots hp s raw).1.buttonState = s.buttonState)
    ∧ ((readPots hp s raw).1.prevButtonState = s.prevButtonState)
    ∧ ((readPots hp s raw).1.buttonDownTime = s.buttonDownTime)
    ∧ ((readPots hp s raw).1.ledRows = s.ledRows)
    ∧ ((readPots hp s raw).1.loopCount = s.loopCount)
    ∧ ((readPots hp s raw).1.lastButtonRead = s.lastButtonRead) := by
  have hfold : ∀ (is : List Nat) (acc : GState × List Ev),
      ((is.foldl (readPotsStep hp raw) acc).1.buttonState = acc.1.buttonState)
      ∧ ((is.foldl (readPotsStep hp raw) acc).1.prevButtonState
          = acc.1.prevButtonState)
      ∧ ((is.foldl (readPotsStep hp raw) acc).1.buttonDownTime = acc.1.buttonDownTime)
      ∧ ((is.foldl (readPotsStep hp raw) acc).1.ledRows = acc.1.ledRows)
      ∧ ((is.foldl (readPotsStep hp raw) acc).1.loopCount = acc.1.loopCount)
      ∧ ((is.foldl (readPotsStep hp raw) acc).1.lastButtonRead
          = acc.1.lastButtonRead) := by
    intro is
    induction is with
    | nil => intro acc; exact ⟨rfl, rfl, rfl, rfl, rfl, rfl⟩
    | cons a as ih =>
        intro acc
        have hstep := readPotsStep_button_fields hp raw acc a
        have hih := ih (readPotsStep hp raw acc a)
        rw [List.foldl_cons]
        exact ⟨hih.1.trans hstep.1, hih.2.1.trans hstep.2.1,
          hih.2.2.1.trans hstep.2.2.1, hih.2.2.2.1.trans hstep.2.2.2.1,
          hih.2.2.2.2.1.trans hstep.2.2.2.2.1, hih.2.2.2.2.2.trans hstep.2.2.2.2.2⟩
  exact hfold _ _

/-! With all callback pointers null, a read emits no event at all. -/

theorem readButtons_events_no_listeners (s : GState) (now : Nat) (sample : Nat → Nat) :
    (readButtons false false s now sample).2 = [] := by
  have hfold : ∀ (is : List Nat) (acc : GState × List Ev),
      (is.foldl (readButtonsStep false false now sample) acc).2 = acc.2 := by
    intro is
    induction is with
    | nil => intro acc; rfl
    | cons a as ih =>
        intro acc
        rw [List.foldl_cons, ih]
        show acc.2 ++ (scanRow false false (MATRIX_ROWS - (a + 1)) now
          (acc.1.buttonState (MATRIX_ROWS - (a + 1))) (sample a % 256)
          acc.1.buttonDownTime).2 = acc.2
        rw [scanRow_events,
          catMap_eq_nil _ _ (fun col _ => cellEv_no_listeners _ now _ _ _ col),
          List.append_nil]
  unfold readButtons
  split
  · rfl
  · exact hfold _ _

theorem readPots_events_no_listener (s : GState) (raw : Nat → Int) :
    (readPots false s raw).2 = [] := by
  have hfold : ∀ (is : List Nat) (acc : GState × List Ev),
      (is.foldl (readPotsStep false raw) acc).2 = acc.2 := by
    intro is
    induction is with
    | nil => intro acc; rfl
    | cons a as ih =>
        intro acc
        rw [List.foldl_cons, ih]
        simp only [readPotsStep]
        split
        · simp
        · rfl
  exact hfold _ _

/-! Arithmetic facts about the held-duration computation. -/

theorem heldForCalc_stored_eq (now1 now2 : Nat) (h : now1 ≤ now2) :
    heldForCalc now2 (millis32 now1 % U16) = (now2 - now1) % U16 := by
  unfold heldForCalc millis32 U32 U16
  omega

theorem heldForCalc_zero (now : Nat) :
    heldForCalc now 0 = millis32 now % U16 := by
  unfold heldForCalc millis32 U32 U16
  omega

set_option maxRecDepth 10000 in
/-- Bit-level characterization of the Arduino `bitWrite` macro on a
byte: writing bit `i` sets exactly that bit and leaves the other bits
of the byte alone. -/
theorem bitWrite_testBit :
    ∀ x, x < 256 → ∀ i, i < 8 → ∀ j, j < 8 → ∀ b : Bool,
      (bitWrite x i b).testBit j = if j = i then b else x.testBit j := by
  decide

/-! Claim theorems. -/

/-- Claim C1 (code bug evaluation).  The claim states that `readButtons`
returns without sampling when fewer than 10 ms have elapsed since the
last accepted read, and samples when at least 10 ms have elapsed.  The
code does the opposite: starting from the zero-initialized state
(`lastButtonRead = 0`) with every button pressed (`sample` byte 255),
a call at `millis() = 11` (11 ms elapsed, so the claim requires a
sampling pass) returns immediately, emitting nothing, changing no
button state and not recording the read time; while a call at
`millis() = 5` (5 ms elapsed, so the claim requires a no-op) performs
the full sampling pass, emits 40 button-down events, stores the sampled
bytes and records the read time. -/
theorem C1_debounce_guard_inverted :
    ((readButtons true true initialState 11 (fun _ => 255)).2 = []
      ∧ (readButtons true true initialState 11 (fun _ => 255)).1.buttonState 0 = 0
      ∧ (readButtons true true initialState 11 (fun _ => 255)).1.lastButtonRead = 0)
    ∧ ((readButtons true true initialState 5 (fun _ => 255)).2.length = 40
      ∧ (readButtons true true initialState 5 (fun _ => 255)).1.buttonState 0 = 255
      ∧ (readButtons true true initialState 5 (fun _ => 255)).1.lastButtonRead = 5) := by
  decide

/-- Claim C2.  For every button cell `(r, c)` whose sampled bit goes
0 to 1 in one admitted `readButtons` pass and 1 to 0 in a later
admitted pass at least `DEBOUNCE_MILLIS` after the first (with both
listeners registered and no clock wrap), the cell emits exactly one
button-down event in the first pass and exactly one button-up event in
the second, whose held duration equals the elapsed time `now2 - now1`
between the recorded press timestamp and the release sample. -/
theorem C2_press_release_events (s : GState) (now1 now2 r c : Nat)
    (sample1 sample2 : Nat → Nat)
    (hr : r < MATRIX_ROWS) (hc : c < MATRIX_COLS)
    (hg1 : ¬ (s.lastButtonRead + DEBOUNCE_MILLIS) % U32 < millis32 now1)
    (hbit0 : (s.buttonState r).testBit c = false)
    (hbit1 : (sample1 (MATRIX_ROWS - (r + 1)) % 256).testBit c = true)
    (hbit2 : (sample2 (MATRIX_ROWS - (r + 1)) % 256).testBit c = false)
    (hord : now1 ≤ now2) (hnw : now2 < U32)
    (hsep : now1 + DEBOUNCE_MILLIS ≤ now2)
    (hg2 : ¬ ((readButtons true true s now1 sample1).1.lastButtonRead
        + DEBOUNCE_MILLIS) % U32 < millis32 now2) :
    ((readButtons true true s now1 sample1).2.filter (evAtCell r c) = [Ev.down r c])
    ∧ ((readButtons true true (readButtons true true s now1 sample1).1 now2
          sample2).2.filter (evAtCell r c) = [Ev.up r c (now2 - now1)]) := by
  have h1 := readButtons_char true true s now1 sample1 hg1 r c hr hc
  have hdf1 : downFire true (s.buttonState r)
      (sample1 (MATRIX_ROWS - (r + 1)) % 256) c = true := by
    simp [downFire, hbit0, hbit1]
  constructor
  · rw [h1.2.2.2.1]
    unfold cellEv
    rw [hdf1]
    simp
  · have h2 := readButtons_char true true (readButtons true true s now1 sample1).1
      now2 sample2 hg2 r c hr hc
    have hbdt : (readButtons true true s now1 sample1).1.buttonDownTime
        (r * MATRIX_COLS + c) = millis32 now1 % U16 := by
      rw [h1.2.2.1, hdf1]
      simp
    have hdf2 : downFire true (sample1 (MATRIX_ROWS - (r + 1)) % 256)
        (sample2 (MATRIX_ROWS - (r + 1)) % 256) c = false := by
      simp [downFire, hbit2]
    have huf2 : upFire true (sample1 (MATRIX_ROWS - (r + 1)) % 256)
        (sample2 (MATRIX_ROWS - (r + 1)) % 256) c = true := by
      simp [upFire, hbit1, hbit2]
    rw [h2.2.2.2.1, h1.1]
    unfold cellEv
    rw [hdf2, huf2]
    simp only [Bool.false_eq_true, if_false, if_true]
    rw [hbdt, heldForCalc_stored_eq now1 now2 hord]
    have he : now2 = now1 + DEBOUNCE_MILLIS := by
      rw [h1.2.2.2.2] at hg2
      revert hg1 hg2 hsep hord hnw
      unfold millis32 U32 DEBOUNCE_MILLIS
      omega
    have hmod : (now2 - now1) % U16 = now2 - now1 := by
      rw [he]
      unfold DEBOUNCE_MILLIS U16
      omega
    rw [hmod]

/-- Witness for C2 at a concrete press/release pair: press of cell
(0, 0) at time 0, release at time 10. -/
theorem C2_press_release_events_witness :
    ((readButtons true true initialState 0
        (fun i => if i == 4 then 1 else 0)).2.filter (evAtCell 0 0) = [Ev.down 0 0])
    ∧ ((readButtons true true (readButtons true true initialState 0
          (fun i => if i == 4 then 1 else 0)).1 10 (fun _ => 0)).2.filter
        (evAtCell 0 0) = [Ev.up 0 0 (10 - 0)]) :=
  C2_press_release_events initialState 0 10 0 0 (fun i => if i == 4 then 1 else 0)
    (fun _ => 0) (by decide) (by decide) (by decide) (by decide) (by decide)
    (by decide) (by decide) (by decide) (by decide) (by decide)

/-- Claim C3.  With a registered pot-change listener, `readPots` fires
for channel `i` exactly when the quantized value (`getPotValue` result
divided by 8) differs from the stored quantized value; the value passed
to the listener is the full-resolution rescaled value, and the stored
value afterwards is the new quantized value. -/
theorem C3_pot_change_iff (s : GState) (raw : Nat → Int) (i : Nat)
    (hi : i < NUM_POTS) :
    ((readPots true s raw).2.filter (evAtPot i)
        = if getPotValue (raw i) / 8 ≠ s.prevPotState i
          then [Ev.pot i (getPotValue (raw i))] else [])
    ∧ ((readPots true s raw).1.prevPotState i = getPotValue (raw i) / 8) := by
  have h := readPots_char true s raw i hi
  refine ⟨?_, h.1⟩
  rw [h.2]
  split
  · rfl
  · rfl

/-- Witness for C3 on channel 0 with raw sample 500 (rescaled 498,
quantized 62, differing from the initial 0). -/
theorem C3_pot_change_iff_witness :
    ((readPots true initialState (fun _ => 500)).2.filter (evAtPot 0)
        = [Ev.pot 0 498])
    ∧ ((readPots true initialState (fun _ => 500)).1.prevPotState 0 = 62) := by
  have h := C3_pot_change_iff initialState (fun _ => 500) 0 (by decide)
  exact ⟨h.1.trans (by decide), h.2.trans (by decide)⟩

/-- Claim C4.  `writeLeds` shifts out the five stored row bytes in
ascending row order when the frame counter `loopCount` is even, and
five zero bytes when it is odd regardless of stored LED state; `write`
emits exactly the `writeLeds` output, then increments the frame counter
by one (as a 32-bit unsigned counter), leaving the stored LED rows
untouched. -/
theorem C4_writeLeds_blink (s : GState) :
    (s.loopCount % 2 = 0 →
      writeLeds s = [s.ledRows 0, s.ledRows 1, s.ledRows 2, s.ledRows 3, s.ledRows 4])
    ∧ (s.loopCount % 2 = 1 → writeLeds s = [0, 0, 0, 0, 0])
    ∧ ((write s).2 = writeLeds s)
    ∧ ((write s).1.loopCount = (s.loopCount + 1) % U32)
    ∧ (s.loopCount + 1 < U32 → (write s).1.loopCount = s.loopCount + 1)
    ∧ ((write s).1.ledRows = s.ledRows) := by
  refine ⟨?_, ?_, rfl, rfl, ?_, rfl⟩
  · intro h
    have hb : (s.loopCount % 2 == 0) = true := by simp [h]
    unfold writeLeds
    rw [show List.range MATRIX_ROWS = [0, 1, 2, 3, 4] from rfl]
    simp [List.foldl, hb]
  · intro h
    have hb : (s.loopCount % 2 == 0) = false := by simp [h]
    unfold writeLeds
    rw [show List.range MATRIX_ROWS = [0, 1, 2, 3, 4] from rfl]
    simp [List.foldl, hb]
  · intro h
    show (s.loopCount + 1) % U32 = s.loopCount + 1
    exact Nat.mod_eq_of_lt h

/-- Witness for C4: the zero state has an even counter and shifts out
its row bytes; with counter 1 the output is all zeros. -/
theorem C4_writeLeds_blink_witness :
    (writeLeds initialState = [initialState.ledRows 0, initialState.ledRows 1,
        initialState.ledRows 2, initialState.ledRows 3, initialState.ledRows 4])
    ∧ (writeLeds { initialState with loopCount := 1 } = [0, 0, 0, 0, 0])
    ∧ ((write initialState).1.loopCount = 0 + 1) :=
  ⟨(C4_writeLeds_blink initialState).1 (by decide),
    (C4_writeLeds_blink { initialState with loopCount := 1 }).2.1 (by decide),
    (C4_writeLeds_blink initialState).2.2.2.2.1 (by decide)⟩

/-- Claim C5.  `getPotValue` clamps the raw analog sample to
`[ANALOG_RANGE_MIN, ANALOG_RANGE_MAX] = [25, 1000]` (values outside
the band are pinned to the nearest bound) and rescales the clamped
value linearly onto `[0, 1023]`; in particular raw samples 10 and 1500
yield the same results as 25 and 1000 respectively. -/
theorem C5_getPotValue_clamp_rescale (raw : Int) :
    (raw ≤ ANALOG_RANGE_MIN → getPotValue raw = getPotValue ANALOG_RANGE_MIN)
    ∧ (ANALOG_RANGE_MAX ≤ raw → getPotValue raw = getPotValue ANALOG_RANGE_MAX)
    ∧ (ANALOG_RANGE_MIN ≤ raw → raw ≤ ANALOG_RANGE_MAX →
        getPotValue raw = (raw - 25) * 1023 / 975)
    ∧ getPotValue 10 = getPotValue 25
    ∧ getPotValue 1500 = getPotValue 1000
    ∧ getPotValue 25 = 0
    ∧ getPotValue 1000 = 1023 := by
  refine ⟨?_, ?_, ?_, by decide, by decide, by decide, by decide⟩
  · intro h
    have h1 : constrain raw ANALOG_RANGE_MIN ANALOG_RANGE_MAX = ANALOG_RANGE_MIN := by
      unfold ANALOG_RANGE_MIN at h
      unfold constrain ANALOG_RANGE_MIN ANALOG_RANGE_MAX
      split
      · rfl
      · split
        · omega
        · omega
    unfold getPotValue
    rw [h1, show constrain ANALOG_RANGE_MIN ANALOG_RANGE_MIN ANALOG_RANGE_MAX
        = ANALOG_RANGE_MIN from by decide]
  · intro h
    have h1 : constrain raw ANALOG_RANGE_MIN ANALOG_RANGE_MAX = ANALOG_RANGE_MAX := by
      unfold ANALOG_RANGE_MAX at h
      unfold constrain ANALOG_RANGE_MIN ANALOG_RANGE_MAX
      split
      · omega
      · split
        · rfl
        · omega
    unfold getPotValue
    rw [h1, show constrain ANALOG_RANGE_MAX ANALOG_RANGE_MIN ANALOG_RANGE_MAX
        = ANALOG_RANGE_MAX from by decide]
  · intro hlo hhi
    have h1 : constrain raw ANALOG_RANGE_MIN ANALOG_RANGE_MAX = raw := by
      unfold ANALOG_RANGE_MIN at hlo
      unfold ANALOG_RANGE_MAX at hhi
      unfold constrain ANALOG_RANGE_MIN ANALOG_RANGE_MAX
      split
      · omega
      · split
        · omega
        · rfl
    unfold getPotValue mapRange
    rw [h1]
    norm_num [ANALOG_RANGE_MIN, ANALOG_RANGE_MAX]

/-- Witness for C5 at raw sample 500 (in band) and 10 (below band). -/
theorem C5_getPotValue_clamp_rescale_witness :
    getPotValue 500 = (500 - 25) * 1023 / 975
    ∧ getPotValue 10 = getPotValue 25 :=
  ⟨(C5_getPotValue_clamp_rescale 500).2.2.1 (by decide) (by decide),
    (C5_getPotValue_clamp_rescale 10).2.2.2.1⟩

/-- Claim C6.  With an unchanged simulated raw signal, two consecutive
`readPots` calls fire the pot-change listener at most once per channel:
at most one event in the first call and none in the second. -/
theorem C6_pot_stable_fires_once (s : GState) (raw : Nat → Int) (i : Nat)
    (hi : i < NUM_POTS) :
    ((readPots true (readPots true s raw).1 raw).2.filter (evAtPot i) = [])
    ∧ (((readPots true s raw).2.filter (evAtPot i)).length ≤ 1) := by
  have h1 := readPots_char true s raw i hi
  have h2 := readPots_char true (readPots true s raw).1 raw i hi
  constructor
  · rw [h2.2, h1.1, if_neg fun hx => hx rfl]
  · rw [h1.2]
    split
    · split
      · simp
      · simp
    · simp

/-- Witness for C6 on channel 0 with constant raw sample 500. -/
theorem C6_pot_stable_fires_once_witness :
    ((readPots true (readPots true initialState (fun _ => 500)).1
        (fun _ => 500)).2.filter (evAtPot 0) = [])
    ∧ (((readPots true initialState (fun _ => 500)).2.filter (evAtPot 0)).length ≤ 1) :=
  C6_pot_stable_fires_once initialState (fun _ => 500) 0 (by decide)

/-- Claim C7.  `setLed r c v` writes exactly bit `MATRIX_COLS - 1 - c`
of the stored byte of row `r`, leaving the other bits of that byte and
every other row byte unchanged; `setLedRow r val` replaces the whole
row byte and leaves every other row unchanged. -/
theorem C7_setLed_single_bit (s : GState) (r c val : Nat) (v : Bool)
    (hr : r < MATRIX_ROWS) (hc : c < MATRIX_COLS) (hbyte : s.ledRows r < 256) :
    (∀ j, j < 8 →
      ((setLed s r c v).ledRows r).testBit j
        = if j = MATRIX_COLS - 1 - c then v else (s.ledRows r).testBit j)
    ∧ (∀ q, q ≠ r → (setLed s r c v).ledRows q = s.ledRows q)
    ∧ ((setLedRow s r val).ledRows r = val % 256)
    ∧ (∀ q, q ≠ r → (setLedRow s r val).ledRows q = s.ledRows q) := by
  refine ⟨?_, ?_, Function.update_same _ _ _, ?_⟩
  · intro j hj
    have hupd : (setLed s r c v).ledRows r
        = bitWrite (s.ledRows r) (MATRIX_COLS - 1 - c) v := Function.update_same _ _ _
    rw [hupd]
    exact bitWrite_testBit (s.ledRows r) hbyte (MATRIX_COLS - 1 - c)
      (by simp only [MATRIX_COLS]; omega) j hj v
  · intro q hq
    exact Function.update_noteq hq _ _
  · intro q hq
    exact Function.update_noteq hq _ _

/-- Witness for C7: lighting LED (0, 0) sets bit 7 of row byte 0 only,
and a whole-row write replaces the byte. -/
theorem C7_setLed_single_bit_witness :
    (((setLed initialState 0 0 true).ledRows 0).testBit 7 = true)
    ∧ ((setLed initialState 0 0 true).ledRows 1 = 0)
    ∧ ((setLedRow initialState 0 170).ledRows 0 = 170) := by
  have h := C7_setLed_single_bit initialState 0 0 170 true (by decide) (by decide)
    (by decide)
  exact ⟨(h.1 7 (by decide)).trans (by decide), (h.2.1 1 (by decide)).trans rfl,
    h.2.2.1.trans (by decide)⟩

/-- Counterexample to claim C8 as stated: constructing the driver when
the clock already reads 11 ms leaves the button state zero even though
the sample has every button pressed, because the (inverted) debounce
guard makes the constructor-time `readButtons` return without sampling;
so button state is not initialized from the first sample. -/
theorem C8_constructor_counterexample :
    ¬ ((construct 11 (fun _ => 255) (fun _ => 0)).1.buttonState 0
        = (fun _ => (255 : Nat)) (MATRIX_ROWS - (0 + 1)) % 256) := by
  decide

/-- Claim C8 as amended.  The constructor calls `read()` once with all
three listener slots null, so no button-down, button-up or pot-change
event is delivered during construction; pot state is always initialized
from that first sample, and button state is initialized from it
provided the debounce guard admits the constructor-time read, i.e.
`millis() <= DEBOUNCE_MILLIS` at construction (true for the usual
global construction at clock 0). -/
theorem C8_constructor_amended (now : Nat) (sample : Nat → Nat) (raw : Nat → Int) :
    ((construct now sample raw).2 = [])
    ∧ (millis32 now ≤ DEBOUNCE_MILLIS →
        ∀ r, r < MATRIX_ROWS →
          (construct now sample raw).1.buttonState r
            = sample (MATRIX_ROWS - (r + 1)) % 256)
    ∧ (∀ i, i < NUM_POTS →
        (construct now sample raw).1.prevPotState i = getPotValue (raw i) / 8) := by
  refine ⟨?_, ?_, ?_⟩
  · show (readButtons false false initialState now sample).2
      ++ (readPots false (readButtons false false initialState now sample).1 raw).2 = []
    rw [readButtons_events_no_listeners, readPots_events_no_listener, List.append_nil]
  · intro hnow r hr
    show (readPots false (readButtons false false initialState now sample).1
      raw).1.buttonState r = sample (MATRIX_ROWS - (r + 1)) % 256
    rw [(readPots_button_fields false _ raw).1]
    have hg : ¬ (initialState.lastButtonRead + DEBOUNCE_MILLIS) % U32 < millis32 now := by
      show ¬ (0 + DEBOUNCE_MILLIS) % U32 < millis32 now
      unfold millis32 DEBOUNCE_MILLIS at hnow
      unfold DEBOUNCE_MILLIS U32 millis32
      omega
    exact (readButtons_char false false initialState now sample hg r 0 hr
      (by decide)).1
  · intro i hi
    show (readPots false (readButtons false false initialState now sample).1
      raw).1.prevPotState i = getPotValue (raw i) / 8
    exact (readPots_char false _ raw i hi).1

/-- Witness for the amended C8 at construction time 0: no events, the
all-pressed sample byte lands in button state and the rescaled pot
sample lands (quantized) in pot state. -/
theorem C8_constructor_amended_witness :
    ((construct 0 (fun _ => 255) (fun _ => 500)).2 = [])
    ∧ ((construct 0 (fun _ => 255) (fun _ => 500)).1.buttonState 0 = 255)
    ∧ ((construct 0 (fun _ => 255) (fun _ => 500)).1.prevPotState 0 = 62) := by
  have h := C8_constructor_amended 0 (fun _ => 255) (fun _ => 500)
  exact ⟨h.1, (h.2.1 (by decide) 0 (by decide)).trans (by decide),
    (h.2.2 0 (by decide)).trans (by decide)⟩

/-- Claim C9.  If no button-down listener is registered when the 0 to 1
transition of cell `(r, c)` is processed, the press timestamp of the
cell is not recorded (and no event fires for the cell); a later
button-up event for the same cell then reports a duration computed from
the stale stored timestamp, which for the initially zero timestamp is
the release clock value truncated to 16 bits, not the actual held
time. -/
theorem C9_no_down_listener_stale_timestamp (s : GState) (now1 now2 r c : Nat)
    (hu : Bool) (sample1 sample2 : Nat → Nat)
    (hr : r < MATRIX_ROWS) (hc : c < MATRIX_COLS)
    (hg1 : ¬ (s.lastButtonRead + DEBOUNCE_MILLIS) % U32 < millis32 now1)
    (hbit0 : (s.buttonState r).testBit c = false)
    (hbit1 : (sample1 (MATRIX_ROWS - (r + 1)) % 256).testBit c = true)
    (hbit2 : (sample2 (MATRIX_ROWS - (r + 1)) % 256).testBit c = false)
    (hg2 : ¬ ((readButtons false hu s now1 sample1).1.lastButtonRead
        + DEBOUNCE_MILLIS) % U32 < millis32 now2) :
    ((readButtons false hu s now1 sample1).1.buttonDownTime (r * MATRIX_COLS + c)
        = s.buttonDownTime (r * MATRIX_COLS + c))
    ∧ ((readButtons false hu s now1 sample1).2.filter (evAtCell r c) = [])
    ∧ ((readButtons true true (readButtons false hu s now1 sample1).1 now2
          sample2).2.filter (evAtCell r c)
        = [Ev.up r c (heldForCalc now2 (s.buttonDownTime (r * MATRIX_COLS + c)))])
    ∧ (s.buttonDownTime (r * MATRIX_COLS + c) = 0 →
        heldForCalc now2 (s.buttonDownTime (r * MATRIX_COLS + c))
          = millis32 now2 % U16) := by
  have h1 := readButtons_char false hu s now1 sample1 hg1 r c hr hc
  have hdf1 : downFire false (s.buttonState r)
      (sample1 (MATRIX_ROWS - (r + 1)) % 256) c = false := by
    simp [downFire]
  have hbdt : (readButtons false hu s now1 sample1).1.buttonDownTime
      (r * MATRIX_COLS + c) = s.buttonDownTime (r * MATRIX_COLS + c) := by
    rw [h1.2.2.1, hdf1]
    simp
  refine ⟨hbdt, ?_, ?_, ?_⟩
  · rw [h1.2.2.2.1]
    unfold cellEv
    have huf1 : upFire hu (s.buttonState r)
        (sample1 (MATRIX_ROWS - (r + 1)) % 256) c = false := by
      simp [upFire, hbit1]
    rw [hdf1, huf1]
    simp
  · have h2 := readButtons_char true true (readButtons false hu s now1 sample1).1
      now2 sample2 hg2 r c hr hc
    have hdf2 : downFire true (sample1 (MATRIX_ROWS - (r + 1)) % 256)
        (sample2 (MATRIX_ROWS - (r + 1)) % 256) c = false := by
      simp [downFire, hbit2]
    have huf2 : upFire true (sample1 (MATRIX_ROWS - (r + 1)) % 256)
        (sample2 (MATRIX_ROWS - (r + 1)) % 256) c = true := by
      simp [upFire, hbit1, hbit2]
    rw [h2.2.2.2.1, h1.1]
    unfold cellEv
    rw [hdf2, huf2]
    simp only [Bool.false_eq_true, if_false, if_true]
    rw [hbdt]
  · intro h0
    rw [h0, heldForCalc_zero]

/-- Witness for C9: press of cell (0, 0) at time 3 with no down
listener, release at time 5; the up event reports the stale value
`heldForCalc 5 0 = 5` instead of the actual 2 ms hold. -/
theorem C9_no_down_listener_stale_timestamp_witness :
    ((readButtons false false initialState 3
        (fun i => if i == 4 then 1 else 0)).1.buttonDownTime (0 * MATRIX_COLS + 0) = 0)
    ∧ ((readButtons false false initialState 3
        (fun i => if i == 4 then 1 else 0)).2.filter (evAtCell 0 0) = [])
    ∧ ((readButtons true true (readButtons false false initialState 3
          (fun i => if i == 4 then 1 else 0)).1 5 (fun _ => 0)).2.filter
        (evAtCell 0 0) = [Ev.up 0 0 5])
    ∧ (heldForCalc 5 0 = 5 ∧ 5 ≠ 5 - 3) := by
  have h := C9_no_down_listener_stale_timestamp initialState 3 5 0 0 false
    (fun i => if i == 4 then 1 else 0) (fun _ => 0) (by decide) (by decide)
    (by decide) (by decide) (by decide) (by decide) (by decide)
  exact ⟨h.1.trans (by decide), h.2.1, h.2.2.1.trans (by decide),
    by decide, by decide⟩

/-- Claim C10.  The held duration reported to the button-up listener is
a 16-bit quantity computed from timestamps truncated modulo `U16`: in
any admitted press/release pair held for at least 65536 ms, the up
event reports the true duration reduced modulo 65536, which differs
from the true duration (wrap-around). -/
theorem C10_held_wraps_mod_u16 (s : GState) (now1 now2 r c : Nat)
    (sample1 sample2 : Nat → Nat)
    (hr : r < MATRIX_ROWS) (hc : c < MATRIX_COLS)
    (hg1 : ¬ (s.lastButtonRead + DEBOUNCE_MILLIS) % U32 < millis32 now1)
    (hbit0 : (s.buttonState r).testBit c = false)
    (hbit1 : (sample1 (MATRIX_ROWS - (r + 1)) % 256).testBit c = true)
    (hbit2 : (sample2 (MATRIX_ROWS - (r + 1)) % 256).testBit c = false)
    (hord : now1 ≤ now2) (hlong : U16 ≤ now2 - now1)
    (hg2 : ¬ ((readButtons true true s now1 sample1).1.lastButtonRead
        + DEBOUNCE_MILLIS) % U32 < millis32 now2) :
    ((readButtons true true (readButtons true true s now1 sample1).1 now2
        sample2).2.filter (evAtCell r c) = [Ev.up r c ((now2 - now1) % U16)])
    ∧ ((now2 - now1) % U16 ≠ now2 - now1) := by
  have h1 := readButtons_char true true s now1 sample1 hg1 r c hr hc
  have hdf1 : downFire true (s.buttonState r)
      (sample1 (MATRIX_ROWS - (r + 1)) % 256) c = true := by
    simp [downFire, hbit0, hbit1]
  have hbdt : (readButtons true true s now1 sample1).1.buttonDownTime
      (r * MATRIX_COLS + c) = millis32 now1 % U16 := by
    rw [h1.2.2.1, hdf1]
    simp
  constructor
  · have h2 := readButtons_char true true (readButtons true true s now1 sample1).1
      now2 sample2 hg2 r c hr hc
    have hdf2 : downFire true (sample1 (MATRIX_ROWS - (r + 1)) % 256)
        (sample2 (MATRIX_ROWS - (r + 1)) % 256) c = false := by
      simp [downFire, hbit2]
    have huf2 : upFire true (sample1 (MATRIX_ROWS - (r + 1)) % 256)
        (sample2 (MATRIX_ROWS - (r + 1)) % 256) c = true := by
      simp [upFire, hbit1, hbit2]
    rw [h2.2.2.2.1, h1.1]
    unfold cellEv
    rw [hdf2, huf2]
    simp only [Bool.false_eq_true, if_false, if_true]
    rw [hbdt, heldForCalc_stored_eq now1 now2 hord]
  · have hlt : (now2 - now1) % U16 < U16 := Nat.mod_lt _ (by decide)
    omega

/-- Witness for C10: press of cell (0, 0) at time 0 and release one
full 32-bit clock wrap later (duration 2^32 ms, admitted because the
wrapped clock reads 0 again); the reported duration is 0. -/
theorem C10_held_wraps_mod_u16_witness :
    ((readButtons true true (readButtons true true initialState 0
        (fun i => if i == 4 then 1 else 0)).1 4294967296 (fun _ => 0)).2.filter
      (evAtCell 0 0) = [Ev.up 0 0 0])
    ∧ ((4294967296 - 0) % U16 ≠ 4294967296 - 0) := by
  have h := C10_held_wraps_mod_u16 initialState 0 4294967296 0 0
    (fun i => if i == 4 then 1 else 0) (fun _ => 0) (by decide) (by decide)
    (by decide) (by decide) (by decide) (by decide) (by decide) (by decide)
    (by decide)
  exact ⟨h.1.trans (by decide), h.2⟩

end Groovesizer
